import Mathlib

/-!
Verification of the UNtoU3 / UNtoSO3 reduction library (headers UNtoU3.h and
UNtoSO3.h, driver test_input_SO3.cpp).

The library enumerates Gelfand-Tsetlin patterns whose top row is a composition
of counts (n4, n3, n2, n1, n0) of the labels 4..0, and accumulates a weight for
each completed pattern.  The two C++ class templates UNtoU3 and UNtoSO3 contain
the same recursion; they differ only in the weight monoid (a triple of
non-negative integers read from the HO-quanta table generateXYZ, versus a
single integer read from the table generateM) and in the level-dimensionality
formula.  The recursion here is therefore written once, over an additive
commutative monoid W of weights, and instantiated twice exactly as the two
headers instantiate their copies.

The compiled configuration is the one the library forces: the header refuses
to compile unless UNTOSO3_DISABLE_PRECALC / UNTOU3_DISABLE_PRECALC is defined,
so the base-case threshold is N = 0 and the base case adds
(4 n4 + 3 n3 + 2 n2 + n1) * q[0].  Tail-call elimination (the default) turns
the degenerate pure drops into in-place mutation of the local row inside a
while loop; each loop iteration is modelled as a tail call on the mutated
state, which is justified by the exactly-one-drop invariant proved below
(body_dropped_eq with degenerateDrop_length): the loop decrements N once per
iteration while the
in-place drops decrement the row total once per iteration, so N stays equal to
row total minus one.
-/

/-- A Gelfand pattern row, stored as its number of fours, threes, twos, ones
and zeros (the C++ type GelfandRow = std::array of 5 counters). -/
structure GelfandRow where
  n4 : Nat
  n3 : Nat
  n2 : Nat
  n1 : Nat
  n0 : Nat
deriving DecidableEq, Repr

/-- Total number of particles in a row; the loop index of the C++ recursion is
N = sum - 1. -/
def GelfandRow.sum (r : GelfandRow) : Nat :=
  r.n4 + r.n3 + r.n2 + r.n1 + r.n0

/-- Result of one statement group of the loop body: recursive calls spawned
(children with their weight accumulators), tags of in-place degenerate drops
performed (4 for the n4 group down to 0 for the n0 group), and the mutated
local state (row and partial weight). -/
structure Step (W : Type) where
  children : List (GelfandRow × W)
  dropped : List Nat
  row : GelfandRow
  pp : W
deriving DecidableEq

section Body

variable {W : Type} [AddCommMonoid W]

/-- The n4 statement group of generateU3WeightsRec / generateSO3WeightsRec. -/
def body4 (q : Nat → W) (N : Nat) (r : GelfandRow) (pp : W) : Step W :=
  if 0 < r.n4 then
    if 0 < r.n3 ∨ 0 < r.n2 ∨ 0 < r.n1 ∨ 0 < r.n0 then
      { children :=
          [(⟨r.n4 - 1, r.n3, r.n2, r.n1, r.n0⟩, pp + 4 • q N)]
          ++ (if 0 < r.n2 then
                [(⟨r.n4 - 1, r.n3 + 1, r.n2 - 1, r.n1, r.n0⟩, pp + 3 • q N)]
                ++ (if 0 < r.n0 then
                      [(⟨r.n4 - 1, r.n3 + 1, r.n2 - 1, r.n1 + 1, r.n0 - 1⟩, pp + 2 • q N)]
                    else [])
              else [])
          ++ (if 0 < r.n1 then
                [(⟨r.n4 - 1, r.n3 + 1, r.n2, r.n1 - 1, r.n0⟩, pp + 2 • q N),
                 (⟨r.n4 - 1, r.n3, r.n2 + 1, r.n1 - 1, r.n0⟩, pp + 3 • q N)]
              else [])
          ++ (if 0 < r.n0 then
                [(⟨r.n4 - 1, r.n3 + 1, r.n2, r.n1, r.n0 - 1⟩, pp + 1 • q N),
                 (⟨r.n4 - 1, r.n3, r.n2 + 1, r.n1, r.n0 - 1⟩, pp + 2 • q N),
                 (⟨r.n4 - 1, r.n3, r.n2, r.n1 + 1, r.n0 - 1⟩, pp + 3 • q N)]
              else []),
        dropped := [], row := r, pp := pp }
    else
      { children := [], dropped := [4],
        row := ⟨r.n4 - 1, r.n3, r.n2, r.n1, r.n0⟩, pp := pp + 4 • q N }
  else
    { children := [], dropped := [], row := r, pp := pp }

/-- The n3 statement group. -/
def body3 (q : Nat → W) (N : Nat) (r : GelfandRow) (pp : W) : Step W :=
  if 0 < r.n3 then
    if 0 < r.n2 ∨ 0 < r.n1 ∨ 0 < r.n0 then
      { children :=
          [(⟨r.n4, r.n3 - 1, r.n2, r.n1, r.n0⟩, pp + 3 • q N)]
          ++ (if 0 < r.n1 then
                [(⟨r.n4, r.n3 - 1, r.n2 + 1, r.n1 - 1, r.n0⟩, pp + 2 • q N)]
              else [])
          ++ (if 0 < r.n0 then
                [(⟨r.n4, r.n3 - 1, r.n2 + 1, r.n1, r.n0 - 1⟩, pp + 1 • q N),
                 (⟨r.n4, r.n3 - 1, r.n2, r.n1 + 1, r.n0 - 1⟩, pp + 2 • q N)]
              else []),
        dropped := [], row := r, pp := pp }
    else
      { children := [], dropped := [3],
        row := ⟨r.n4, r.n3 - 1, r.n2, r.n1, r.n0⟩, pp := pp + 3 • q N }
  else
    { children := [], dropped := [], row := r, pp := pp }

/-- The n2 statement group. -/
def body2 (q : Nat → W) (N : Nat) (r : GelfandRow) (pp : W) : Step W :=
  if 0 < r.n2 then
    if 0 < r.n1 ∨ 0 < r.n0 then
      { children :=
          [(⟨r.n4, r.n3, r.n2 - 1, r.n1, r.n0⟩, pp + 2 • q N)]
          ++ (if 0 < r.n0 then
                [(⟨r.n4, r.n3, r.n2 - 1, r.n1 + 1, r.n0 - 1⟩, pp + 1 • q N)]
              else []),
        dropped := [], row := r, pp := pp }
    else
      { children := [], dropped := [2],
        row := ⟨r.n4, r.n3, r.n2 - 1, r.n1, r.n0⟩, pp := pp + 2 • q N }
  else
    { children := [], dropped := [], row := r, pp := pp }

/-- The n1 statement group. -/
def body1 (q : Nat → W) (N : Nat) (r : GelfandRow) (pp : W) : Step W :=
  if 0 < r.n1 then
    if 0 < r.n0 then
      { children := [(⟨r.n4, r.n3, r.n2, r.n1 - 1, r.n0⟩, pp + 1 • q N)],
        dropped := [], row := r, pp := pp }
    else
      { children := [], dropped := [1],
        row := ⟨r.n4, r.n3, r.n2, r.n1 - 1, r.n0⟩, pp := pp + 1 • q N }
  else
    { children := [], dropped := [], row := r, pp := pp }

/-- The n0 statement group: under tail-call elimination the n0 drop is always
performed in place and contributes nothing to the weight. -/
def body0 (q : Nat → W) (N : Nat) (r : GelfandRow) (pp : W) : Step W :=
  if 0 < r.n0 then
    { children := [], dropped := [0],
      row := ⟨r.n4, r.n3, r.n2, r.n1, r.n0 - 1⟩, pp := pp }
  else
    { children := [], dropped := [], row := r, pp := pp }

/-- One full iteration of the while loop of the recursion: the five statement
groups executed in order on the sequentially mutated local state, collecting
the recursive calls and the in-place drops. -/
def body (q : Nat → W) (N : Nat) (r : GelfandRow) (pp : W) : Step W :=
  let s4 := body4 q N r pp
  let s3 := body3 q N s4.row s4.pp
  let s2 := body2 q N s3.row s3.pp
  let s1 := body1 q N s2.row s2.pp
  let s0 := body0 q N s1.row s1.pp
  { children := s4.children ++ s3.children ++ s2.children ++ s1.children ++ s0.children,
    dropped := s4.dropped ++ s3.dropped ++ s2.dropped ++ s1.dropped ++ s0.dropped,
    row := s0.row, pp := s0.pp }

end Body

/-- The group that the spec calls the degenerate one of an iteration: the
group whose counter is nonzero while all lower groups are zero (there is at
most one such group, and exactly one when the row is nonempty). -/
def degenerateDrop (r : GelfandRow) : List Nat :=
  if 0 < r.n0 then [0]
  else if 0 < r.n1 then [1]
  else if 0 < r.n2 then [2]
  else if 0 < r.n3 then [3]
  else if 0 < r.n4 then [4]
  else []

section BodyLemmas

variable {W : Type} [AddCommMonoid W]

lemma body_dropped_eq (q : Nat → W) (N : Nat) (r : GelfandRow) (pp : W) :
    (body q N r pp).dropped = degenerateDrop r := by
  obtain ⟨n4, n3, n2, n1, n0⟩ := r
  rcases Nat.eq_zero_or_pos n4 with h4 | h4 <;>
    rcases Nat.eq_zero_or_pos n3 with h3 | h3 <;>
      rcases Nat.eq_zero_or_pos n2 with h2 | h2 <;>
        rcases Nat.eq_zero_or_pos n1 with h1 | h1 <;>
          rcases Nat.eq_zero_or_pos n0 with h0 | h0 <;>
            simp_all [body, body4, body3, body2, body1, body0, degenerateDrop]

lemma body4_rowsum (q : Nat → W) (N : Nat) (r : GelfandRow) (pp : W) :
    (body4 q N r pp).row.sum + (body4 q N r pp).dropped.length = r.sum := by
  obtain ⟨n4, n3, n2, n1, n0⟩ := r
  simp only [body4]
  split_ifs <;> simp [GelfandRow.sum] <;> omega

lemma body3_rowsum (q : Nat → W) (N : Nat) (r : GelfandRow) (pp : W) :
    (body3 q N r pp).row.sum + (body3 q N r pp).dropped.length = r.sum := by
  obtain ⟨n4, n3, n2, n1, n0⟩ := r
  simp only [body3]
  split_ifs <;> simp [GelfandRow.sum] <;> omega

lemma body2_rowsum (q : Nat → W) (N : Nat) (r : GelfandRow) (pp : W) :
    (body2 q N r pp).row.sum + (body2 q N r pp).dropped.length = r.sum := by
  obtain ⟨n4, n3, n2, n1, n0⟩ := r
  simp only [body2]
  split_ifs <;> simp [GelfandRow.sum] <;> omega

lemma body1_rowsum (q : Nat → W) (N : Nat) (r : GelfandRow) (pp : W) :
    (body1 q N r pp).row.sum + (body1 q N r pp).dropped.length = r.sum := by
  obtain ⟨n4, n3, n2, n1, n0⟩ := r
  simp only [body1]
  split_ifs <;> simp [GelfandRow.sum] <;> omega

lemma body0_rowsum (q : Nat → W) (N : Nat) (r : GelfandRow) (pp : W) :
    (body0 q N r pp).row.sum + (body0 q N r pp).dropped.length = r.sum := by
  obtain ⟨n4, n3, n2, n1, n0⟩ := r
  simp only [body0]
  split_ifs <;> simp [GelfandRow.sum] <;> omega

lemma body_rowsum (q : Nat → W) (N : Nat) (r : GelfandRow) (pp : W) :
    (body q N r pp).row.sum + (body q N r pp).dropped.length = r.sum := by
  have h4 := body4_rowsum q N r pp
  have h3 := body3_rowsum q N (body4 q N r pp).row (body4 q N r pp).pp
  have h2 := body2_rowsum q N (body3 q N (body4 q N r pp).row (body4 q N r pp).pp).row
    (body3 q N (body4 q N r pp).row (body4 q N r pp).pp).pp
  have h1 := body1_rowsum q N
    (body2 q N (body3 q N (body4 q N r pp).row (body4 q N r pp).pp).row
      (body3 q N (body4 q N r pp).row (body4 q N r pp).pp).pp).row
    (body2 q N (body3 q N (body4 q N r pp).row (body4 q N r pp).pp).row
      (body3 q N (body4 q N r pp).row (body4 q N r pp).pp).pp).pp
  have h0 := body0_rowsum q N
    (body1 q N
      (body2 q N (body3 q N (body4 q N r pp).row (body4 q N r pp).pp).row
        (body3 q N (body4 q N r pp).row (body4 q N r pp).pp).pp).row
      (body2 q N (body3 q N (body4 q N r pp).row (body4 q N r pp).pp).row
        (body3 q N (body4 q N r pp).row (body4 q N r pp).pp).pp).pp).row
    (body1 q N
      (body2 q N (body3 q N (body4 q N r pp).row (body4 q N r pp).pp).row
        (body3 q N (body4 q N r pp).row (body4 q N r pp).pp).pp).row
      (body2 q N (body3 q N (body4 q N r pp).row (body4 q N r pp).pp).row
        (body3 q N (body4 q N r pp).row (body4 q N r pp).pp).pp).pp).pp
  simp only [body, List.length_append]
  omega

lemma degenerateDrop_length (r : GelfandRow) (h : 1 ≤ r.sum) :
    (degenerateDrop r).length = 1 := by
  obtain ⟨n4, n3, n2, n1, n0⟩ := r
  simp only [GelfandRow.sum] at h
  simp only [degenerateDrop]
  split_ifs <;> simp_all <;> omega

lemma body_row_sum (q : Nat → W) (N : Nat) (r : GelfandRow) (pp : W)
    (h : 1 ≤ r.sum) : (body q N r pp).row.sum + 1 = r.sum := by
  have h1 := body_rowsum q N r pp
  have h2 := body_dropped_eq q N r pp
  have h3 := degenerateDrop_length r h
  rw [h2, h3] at h1
  exact h1

lemma body4_children_mem (q : Nat → W) (N : Nat) (r : GelfandRow) (pp : W) :
    ∀ c ∈ (body4 q N r pp).children, c.1.sum + 1 = r.sum := by
  obtain ⟨n4, n3, n2, n1, n0⟩ := r
  simp only [body4]
  split_ifs <;> simp [List.forall_mem_append, GelfandRow.sum] <;> omega

lemma body3_children_mem (q : Nat → W) (N : Nat) (r : GelfandRow) (pp : W) :
    ∀ c ∈ (body3 q N r pp).children, c.1.sum + 1 = r.sum := by
  obtain ⟨n4, n3, n2, n1, n0⟩ := r
  simp only [body3]
  split_ifs <;> simp [List.forall_mem_append, GelfandRow.sum] <;> omega

lemma body2_children_mem (q : Nat → W) (N : Nat) (r : GelfandRow) (pp : W) :
    ∀ c ∈ (body2 q N r pp).children, c.1.sum + 1 = r.sum := by
  obtain ⟨n4, n3, n2, n1, n0⟩ := r
  simp only [body2]
  split_ifs <;> simp [List.forall_mem_append, GelfandRow.sum] <;> omega

lemma body1_children_mem (q : Nat → W) (N : Nat) (r : GelfandRow) (pp : W) :
    ∀ c ∈ (body1 q N r pp).children, c.1.sum + 1 = r.sum := by
  obtain ⟨n4, n3, n2, n1, n0⟩ := r
  simp only [body1]
  split_ifs <;> simp [List.forall_mem_append, GelfandRow.sum] <;> omega

lemma body0_children (q : Nat → W) (N : Nat) (r : GelfandRow) (pp : W) :
    (body0 q N r pp).children = [] := by
  simp only [body0]
  split_ifs <;> rfl

lemma body3_inert_children (q : Nat → W) (N : Nat) (r : GelfandRow) (pp : W)
    (h : r.n3 = 0) : (body3 q N r pp).children = [] := by
  simp [body3, h]

lemma body3_inert_row (q : Nat → W) (N : Nat) (r : GelfandRow) (pp : W)
    (h : r.n3 = 0) : (body3 q N r pp).row = r := by
  simp [body3, h]

lemma body3_inert_pp (q : Nat → W) (N : Nat) (r : GelfandRow) (pp : W)
    (h : r.n3 = 0) : (body3 q N r pp).pp = pp := by
  simp [body3, h]

lemma body2_inert_children (q : Nat → W) (N : Nat) (r : GelfandRow) (pp : W)
    (h : r.n2 = 0) : (body2 q N r pp).children = [] := by
  simp [body2, h]

lemma body2_inert_row (q : Nat → W) (N : Nat) (r : GelfandRow) (pp : W)
    (h : r.n2 = 0) : (body2 q N r pp).row = r := by
  simp [body2, h]

lemma body2_inert_pp (q : Nat → W) (N : Nat) (r : GelfandRow) (pp : W)
    (h : r.n2 = 0) : (body2 q N r pp).pp = pp := by
  simp [body2, h]

lemma body1_inert_children (q : Nat → W) (N : Nat) (r : GelfandRow) (pp : W)
    (h : r.n1 = 0) : (body1 q N r pp).children = [] := by
  simp [body1, h]

lemma body4_row_cases (q : Nat → W) (N : Nat) (r : GelfandRow) (pp : W) :
    (body4 q N r pp).row = r ∨
      ((body4 q N r pp).row.n3 = 0 ∧ (body4 q N r pp).row.n2 = 0 ∧
        (body4 q N r pp).row.n1 = 0 ∧ (body4 q N r pp).row.n0 = 0) := by
  obtain ⟨n4, n3, n2, n1, n0⟩ := r
  simp only [body4]
  split_ifs with h1 h2 <;>
    first
      | exact Or.inl rfl
      | (right
         push_neg at h2
         simp only [Nat.le_zero] at h2
         exact ⟨h2.1, h2.2.1, h2.2.2.1, h2.2.2.2⟩)

lemma body3_row_cases (q : Nat → W) (N : Nat) (r : GelfandRow) (pp : W) :
    (body3 q N r pp).row = r ∨
      ((body3 q N r pp).row.n2 = 0 ∧ (body3 q N r pp).row.n1 = 0 ∧
        (body3 q N r pp).row.n0 = 0) := by
  obtain ⟨n4, n3, n2, n1, n0⟩ := r
  simp only [body3]
  split_ifs with h1 h2 <;>
    first
      | exact Or.inl rfl
      | (right
         push_neg at h2
         simp only [Nat.le_zero] at h2
         exact ⟨h2.1, h2.2.1, h2.2.2⟩)

lemma body2_row_cases (q : Nat → W) (N : Nat) (r : GelfandRow) (pp : W) :
    (body2 q N r pp).row = r ∨
      ((body2 q N r pp).row.n1 = 0 ∧ (body2 q N r pp).row.n0 = 0) := by
  obtain ⟨n4, n3, n2, n1, n0⟩ := r
  simp only [body2]
  split_ifs with h1 h2 <;>
    first
      | exact Or.inl rfl
      | (right
         push_neg at h2
         simp only [Nat.le_zero] at h2
         exact ⟨h2.1, h2.2⟩)

lemma body_children_mem (q : Nat → W) (N : Nat) (r : GelfandRow) (pp : W) :
    ∀ c ∈ (body q N r pp).children, c.1.sum + 1 = r.sum := by
  intro c hc
  simp only [body, List.mem_append] at hc
  rcases hc with ((((hc | hc) | hc) | hc) | hc)
  · exact body4_children_mem q N r pp c hc
  · rcases body4_row_cases q N r pp with h | h
    · have h' := body3_children_mem q N (body4 q N r pp).row (body4 q N r pp).pp c hc
      rwa [h] at h'
    · rw [body3_inert_children q N _ _ h.1] at hc
      exact absurd hc (List.not_mem_nil c)
  · rcases body4_row_cases q N r pp with h | h
    · rcases body3_row_cases q N (body4 q N r pp).row (body4 q N r pp).pp with h' | h'
      · have h'' := body2_children_mem q N
          (body3 q N (body4 q N r pp).row (body4 q N r pp).pp).row
          (body3 q N (body4 q N r pp).row (body4 q N r pp).pp).pp c hc
        rwa [h', h] at h''
      · rw [body2_inert_children q N _ _ h'.1] at hc
        exact absurd hc (List.not_mem_nil c)
    · rw [body3_inert_row q N _ _ h.1, body3_inert_pp q N _ _ h.1] at hc
      rw [body2_inert_children q N _ _ h.2.1] at hc
      exact absurd hc (List.not_mem_nil c)
  · rcases body4_row_cases q N r pp with h | h
    · rcases body3_row_cases q N (body4 q N r pp).row (body4 q N r pp).pp with h' | h'
      · rcases body2_row_cases q N
          (body3 q N (body4 q N r pp).row (body4 q N r pp).pp).row
          (body3 q N (body4 q N r pp).row (body4 q N r pp).pp).pp with h'' | h''
        · have h3 := body1_children_mem q N
            (body2 q N (body3 q N (body4 q N r pp).row (body4 q N r pp).pp).row
              (body3 q N (body4 q N r pp).row (body4 q N r pp).pp).pp).row
            (body2 q N (body3 q N (body4 q N r pp).row (body4 q N r pp).pp).row
              (body3 q N (body4 q N r pp).row (body4 q N r pp).pp).pp).pp c hc
          rwa [h'', h', h] at h3
        · rw [body1_inert_children q N _ _ h''.1] at hc
          exact absurd hc (List.not_mem_nil c)
      · rw [body2_inert_row q N _ _ h'.1, body2_inert_pp q N _ _ h'.1] at hc
        rw [body1_inert_children q N _ _ h'.2.1] at hc
        exact absurd hc (List.not_mem_nil c)
    · rw [body3_inert_row q N _ _ h.1, body3_inert_pp q N _ _ h.1] at hc
      rw [body2_inert_row q N _ _ h.2.1, body2_inert_pp q N _ _ h.2.1] at hc
      rw [body1_inert_children q N _ _ h.2.2.1] at hc
      exact absurd hc (List.not_mem_nil c)
  · rw [body0_children] at hc
    exact absurd hc (List.not_mem_nil c)

end BodyLemmas

section Recursion

variable {W : Type} [AddCommMonoid W]

/-- The recursive enumerator generateU3WeightsRec / generateSO3WeightsRec in
the compiled configuration (precalc disabled, tail-call elimination enabled):
while N = sum - 1 > 0 the loop body spawns the recursive calls of the
iteration and performs its single in-place degenerate drop (which decrements
the row total by one, so the decremented loop index N again equals
sum - 1, see body_row_sum); when N reaches 0 the base case emits the single
weight pp + (4 n4 + 3 n3 + 2 n2 + n1) * q 0.  The returned list holds the
emitted weights in the order the serial code increments the multiplicity
map. -/
def generateWeightsRec (q : Nat → W) (r : GelfandRow) (pp : W) : List W :=
  if h : 2 ≤ r.sum then
    ((body q (r.sum - 1) r pp).children.attach.map
      (fun c => generateWeightsRec q c.1.1 c.1.2)).flatten
    ++ generateWeightsRec q (body q (r.sum - 1) r pp).row (body q (r.sum - 1) r pp).pp
  else
    [pp + (4 * r.n4 + 3 * r.n3 + 2 * r.n2 + r.n1) • q 0]
termination_by r.sum
decreasing_by
  · have hm := body_children_mem q (r.sum - 1) r pp c.1 c.2
    omega
  · have hs := body_row_sum q (r.sum - 1) r pp (by omega)
    omega

lemma generateWeightsRec_unfold (q : Nat → W) (r : GelfandRow) (pp : W) :
    generateWeightsRec q r pp =
      if 2 ≤ r.sum then
        ((body q (r.sum - 1) r pp).children.map
          (fun c => generateWeightsRec q c.1 c.2)).flatten
        ++ generateWeightsRec q (body q (r.sum - 1) r pp).row (body q (r.sum - 1) r pp).pp
      else
        [pp + (4 * r.n4 + 3 * r.n3 + 2 * r.n2 + r.n1) • q 0] := by
  rw [generateWeightsRec]
  split
  · rw [List.attach_map_val
      ((body q (r.sum - 1) r pp).children)
      (fun c => generateWeightsRec q c.1 c.2)]
  · rfl

end Recursion

/-- UNtoSO3::generateM: the quanta table for the SO(3) variant, the vector
(-l, -l+1, ..., l) of angular-momentum projections. -/
def generateM (l : Nat) : List Int :=
  (List.range (2 * l + 1)).map (fun (i : Nat) => (i : Int) - (l : Int))

/-- Lookup in the SO(3) quanta table (the read m_[N]); indices are proved in
bounds for valid inputs, the default value is never reached there. -/
def mQ (l : Nat) : Nat → Int :=
  fun N => (generateM l).getD N 0

/-- UNtoSO3::generateSO3Weights in the serial configuration: the multiplicity
table mult_ is cleared and then filled by generateSO3WeightsRec(gpr, 0); the
resulting map is the multiset of emitted weights (a key is present with
multiplicity m iff it was incremented m times). -/
def generateSO3Weights (l : Nat) (r : GelfandRow) : Multiset Int :=
  ↑(generateWeightsRec (mQ l) r 0)

/-- UNtoU3::generateXYZ: the HO-quanta table for shell n, one (n_z, n_x, n_y)
triple per index, produced by the nested loop with k = 0..n, n_z = n - k and
n_x descending from k to 0, n_y = n - n_z - n_x. -/
def generateXYZ (n : Nat) : List (Nat × Nat × Nat) :=
  (List.range (n + 1)).flatMap (fun k =>
    (List.range (k + 1)).map (fun i =>
      (n - k, k - i, n - (n - k) - (k - i))))

/-- Lookup of the quanta triple at index N (the reads xyz_[0..2][N]). -/
def xyzQ (n : Nat) : Nat → Nat × Nat × Nat :=
  fun N => (generateXYZ n).getD N (0, 0, 0)

/-- UNtoU3::generateU3Weights in the serial configuration. -/
def generateU3Weights (n : Nat) (r : GelfandRow) : Multiset (Nat × Nat × Nat) :=
  ↑(generateWeightsRec (xyzQ n) r (0, 0, 0))

/-- unordered_map::find on a multiplicity table: a key is stored iff its
multiplicity is nonzero (entries are only ever created by incrementing). -/
def findMult {A : Type} [DecidableEq A] (M : Multiset A) (x : A) : Option Nat :=
  if M.count x = 0 then none else some (M.count x)

/-- UNtoSO3::getLevelDimensionality.  For l < 0 it returns 0; otherwise the
lookup of l itself is guarded by assert(so3_mult != mult_.end()), modelled as
none on a missing key; the lookup of l + 1 treats a missing key as zero, and
the subtraction is on the unsigned multiplicity type. -/
def getLevelDimensionalitySO3 (M : Multiset Int) (l : Int) : Option Nat :=
  if l < 0 then some 0
  else
    match findMult M l with
    | none => none
    | some mult => some (mult - ((findMult M (l + 1)).getD 0))

/-- Addition of uint32_t weight labels (the U(3) weight component type T). -/
def add32 (a b : Nat) : Nat := (a + b) % 2 ^ 32

/-- Subtraction of uint32_t weight labels; wraps around on underflow exactly
like the C++ unsigned arithmetic used to build the shifted keys. -/
def sub32 (a b : Nat) : Nat := (a % 2 ^ 32 + (2 ^ 32 - b % 2 ^ 32)) % 2 ^ 32

/-- UNtoU3::getLevelDimensionality.  Returns 0 unless f1 >= f2 >= f3; the
lookup of (f1,f2,f3) itself is guarded by assert(u3_mult != mult_.end()),
modelled as none on a missing key; the five shifted keys are computed in
uint32_t arithmetic and treat a missing key as zero; the two additions and
three subtractions are applied to the unsigned multiplicity in the order of
the source. -/
def getLevelDimensionalityU3 (M : Multiset (Nat × Nat × Nat)) (f : Nat × Nat × Nat) :
    Option Nat :=
  if f.1 < f.2.1 ∨ f.2.1 < f.2.2 then some 0
  else
    match findMult M (f.1, f.2.1, f.2.2) with
    | none => none
    | some mult => some ((((mult
        + ((findMult M (add32 f.1 1, add32 f.2.1 1, sub32 f.2.2 2)).getD 0)
        + ((findMult M (add32 f.1 2, sub32 f.2.1 1, sub32 f.2.2 1)).getD 0))
        - ((findMult M (add32 f.1 2, f.2.1, sub32 f.2.2 2)).getD 0))
        - ((findMult M (add32 f.1 1, sub32 f.2.1 1, f.2.2)).getD 0))
        - ((findMult M (f.1, add32 f.2.1 1, sub32 f.2.2 1)).getD 0))

/-- The test driver main of test_input_SO3.cpp: it reads l and the five
counters, throws invalid_argument("Arguments mismatch!") before the
enumerator object is even constructed when the counters do not sum to
2l + 1, and otherwise runs generateM followed by generateSO3Weights. -/
def mainSO3 (l : Nat) (r : GelfandRow) : Except String (Multiset Int) :=
  if r.n4 + r.n3 + r.n2 + r.n1 + r.n0 ≠ 2 * l + 1 then
    Except.error "Arguments mismatch!"
  else
    Except.ok (generateSO3Weights l r)

/-- One thread-local multiplicity map of the OpenMP configuration: sched
assigns each emission (identified by its position in the serial emission
order, the finest possible task granularity) to the worker executing it, and
wmap collects the emissions a single worker accumulates in its mult_tl_. -/
def wmap {W : Type} (k : Nat) (sched : Nat → Fin k) :
    List W → Nat → Fin k → Multiset W
  | [], _, _ => 0
  | x :: xs, i, t => (if sched i = t then {x} else 0) + wmap k sched xs (i + 1) t

/-- The merge phase of generateU3Weights / generateSO3Weights with OpenMP
enabled: for every worker, mult_[w] += its thread-local count, i.e. the sum
of all thread-local maps. -/
def mergeTL {W : Type} (k : Nat) (sched : Nat → Fin k) (l : List W) : Multiset W :=
  ∑ t : Fin k, wmap k sched l 0 t

/-- The table indices at which the recursion reads the quanta table (m_[...]
or xyz_[...][...]): a loop iteration reads index N = sum - 1 exactly when one
of the n4..n1 statement groups fires (the n0 group performs no read), and the
base case always reads index 0.  The set of reads does not depend on the
table contents, so the table argument of body is instantiated trivially. -/
def usedIndices (r : GelfandRow) : List Nat :=
  if h : 2 ≤ r.sum then
    (if 0 < r.n4 ∨ 0 < r.n3 ∨ 0 < r.n2 ∨ 0 < r.n1 then [r.sum - 1] else [])
    ++ ((body (fun _ => (0 : Nat)) (r.sum - 1) r 0).children.attach.map
        (fun c => usedIndices c.1.1)).flatten
    ++ usedIndices (body (fun _ => (0 : Nat)) (r.sum - 1) r 0).row
  else [0]
termination_by r.sum
decreasing_by
  · have hm := body_children_mem (fun _ => (0 : Nat)) (r.sum - 1) r 0 c.1 c.2
    omega
  · have hs := body_row_sum (fun _ => (0 : Nat)) (r.sum - 1) r 0 (by omega)
    omega

/-- Table lookup with mathematical-integer key components: the multiplicity
of (a, b, c) in the table viewed over the integers, so a key with a negative
component is simply absent.  This is the reading of the spec in which the
shifted keys of the U(3) dimensionality formula with, e.g., f3 - 2 below
zero contribute nothing. -/
def countZ (M : Multiset (Nat × Nat × Nat)) (a b c : Int) : Nat :=
  (M.map (fun p => ((p.1 : Int), (p.2.1 : Int), (p.2.2 : Int)))).count (a, b, c)

/-- The list of children of the n4 bullet of the branching rules in the spec
(section 4.3), transcribed from the spec text: the pure drop, then the n2
mixing transitions, then the n1 ones, then the n0 ones, each with its stated
weight increment. -/
def n4SpecChildren {W : Type} [AddCommMonoid W] (q : Nat → W) (N : Nat)
    (r : GelfandRow) (pp : W) : List (GelfandRow × W) :=
  [(⟨r.n4 - 1, r.n3, r.n2, r.n1, r.n0⟩, pp + 4 • q N)]
  ++ (if 0 < r.n2 then
        [(⟨r.n4 - 1, r.n3 + 1, r.n2 - 1, r.n1, r.n0⟩, pp + 3 • q N)]
        ++ (if 0 < r.n0 then
              [(⟨r.n4 - 1, r.n3 + 1, r.n2 - 1, r.n1 + 1, r.n0 - 1⟩, pp + 2 • q N)]
            else [])
      else [])
  ++ (if 0 < r.n1 then
        [(⟨r.n4 - 1, r.n3 + 1, r.n2, r.n1 - 1, r.n0⟩, pp + 2 • q N),
         (⟨r.n4 - 1, r.n3, r.n2 + 1, r.n1 - 1, r.n0⟩, pp + 3 • q N)]
      else [])
  ++ (if 0 < r.n0 then
        [(⟨r.n4 - 1, r.n3 + 1, r.n2, r.n1, r.n0 - 1⟩, pp + 1 • q N),
         (⟨r.n4 - 1, r.n3, r.n2 + 1, r.n1, r.n0 - 1⟩, pp + 2 • q N),
         (⟨r.n4 - 1, r.n3, r.n2, r.n1 + 1, r.n0 - 1⟩, pp + 3 • q N)]
      else [])

lemma findMult_getD_eq {A : Type} [DecidableEq A] (M : Multiset A) (x : A) :
    (findMult M x).getD 0 = M.count x := by
  unfold findMult
  split_ifs with h
  · simp [h]
  · rfl

lemma countZ_neg (M : Multiset (Nat × Nat × Nat)) (a b c : Int)
    (h : a < 0 ∨ b < 0 ∨ c < 0) : countZ M a b c = 0 := by
  unfold countZ
  rw [Multiset.count_eq_zero]
  intro hmem
  rw [Multiset.mem_map] at hmem
  obtain ⟨p, _, hp⟩ := hmem
  obtain ⟨a, b, c⟩ := p
  simp only [Prod.mk.injEq] at hp
  rcases h with h | h | h <;> omega

lemma countZ_coe (M : Multiset (Nat × Nat × Nat)) (x y z : Nat) :
    countZ M ((x : Int)) ((y : Int)) ((z : Int)) = M.count (x, y, z) := by
  unfold countZ
  have hinj : Function.Injective
      (fun p : Nat × Nat × Nat => ((p.1 : Int), (p.2.1 : Int), (p.2.2 : Int))) := by
    intro p p' hpe
    obtain ⟨a, b, c⟩ := p
    obtain ⟨a', b', c'⟩ := p'
    simp only [Prod.mk.injEq] at hpe ⊢
    refine ⟨?_, ?_, ?_⟩ <;> omega
  exact Multiset.count_map_eq_count'
    (fun p : Nat × Nat × Nat => ((p.1 : Int), (p.2.1 : Int), (p.2.2 : Int))) M hinj (x, y, z)

lemma count_big_zero (M : Multiset (Nat × Nat × Nat))
    (hM : ∀ p ∈ M, p.1 < 2 ^ 31 ∧ p.2.1 < 2 ^ 31 ∧ p.2.2 < 2 ^ 31)
    (x y z : Nat) (h : 2 ^ 31 ≤ x ∨ 2 ^ 31 ≤ y ∨ 2 ^ 31 ≤ z) :
    M.count (x, y, z) = 0 := by
  rw [Multiset.count_eq_zero]
  intro hmem
  have := hM (x, y, z) hmem
  simp only at this
  omega

lemma wmap_sum {W : Type} (k : Nat) (sched : Nat → Fin k) (l : List W) :
    ∀ i : Nat, ∑ t : Fin k, wmap k sched l i t = ↑l := by
  induction l with
  | nil => intro i; simp [wmap]
  | cons x xs ih =>
      intro i
      simp only [wmap]
      rw [Finset.sum_add_distrib, ih (i + 1)]
      rw [Finset.sum_ite_eq Finset.univ (sched i) (fun _ => ({x} : Multiset W))]
      simp [Multiset.singleton_add]

lemma usedIndices_bound : ∀ (s : Nat) (r : GelfandRow), r.sum ≤ s →
    ∀ i ∈ usedIndices r, i = 0 ∨ i < r.sum := by
  intro s
  induction s with
  | zero =>
      intro r hr i hi
      rw [usedIndices] at hi
      rw [dif_neg (by omega)] at hi
      simp only [List.mem_singleton] at hi
      exact Or.inl hi
  | succ s ih =>
      intro r hr i hi
      rw [usedIndices] at hi
      by_cases h2 : 2 ≤ r.sum
      · rw [dif_pos h2] at hi
        simp only [List.mem_append] at hi
        rcases hi with (hi | hi) | hi
        · right
          rcases Nat.decLt 0 r.n4 with _ | _ <;>
            · split_ifs at hi with hcond
              · simp only [List.mem_singleton] at hi
                omega
              · exact absurd hi (List.not_mem_nil i)
        · rw [List.mem_flatten] at hi
          obtain ⟨L, hL, hiL⟩ := hi
          rw [List.mem_map] at hL
          obtain ⟨c, _, hc⟩ := hL
          have hsum := body_children_mem (fun _ => (0 : Nat)) (r.sum - 1) r 0 c.1 c.2
          have hrec := ih c.1.1 (by omega) i (hc ▸ hiL)
          rcases hrec with h | h
          · exact Or.inl h
          · right; omega
        · have hsum := body_row_sum (fun _ => (0 : Nat)) (r.sum - 1) r 0 (by omega)
          have hrec := ih (body (fun _ => (0 : Nat)) (r.sum - 1) r 0).row (by omega) i hi
          rcases hrec with h | h
          · exact Or.inl h
          · right; omega
      · rw [dif_neg h2] at hi
        simp only [List.mem_singleton] at hi
        exact Or.inl hi

lemma generateM_length (l : Nat) : (generateM l).length = 2 * l + 1 := by
  unfold generateM
  rw [List.length_map, List.length_range]

lemma range_map_succ_sum (m : Nat) :
    2 * ((List.range m).map (fun k => k + 1)).sum = m * (m + 1) := by
  induction m with
  | zero => rfl
  | succ m ih =>
      rw [List.range_succ, List.map_append, List.sum_append]
      simp only [List.map_cons, List.map_nil, List.sum_cons, List.sum_nil]
      rw [Nat.mul_add, ih]
      ring

lemma flatMapBlocks_twolen (m : Nat) (F : Nat → List (Nat × Nat × Nat))
    (hF : ∀ k, (F k).length = k + 1) :
    2 * ((List.range m).flatMap F).length = m * (m + 1) := by
  simp only [List.flatMap]
  rw [List.length_flatten, List.map_map]
  have hmap : List.map (List.length ∘ F) (List.range m)
      = (List.range m).map (fun k => k + 1) := by
    apply List.map_congr_left
    intro a _
    simp [Function.comp, hF]
  rw [hmap, range_map_succ_sum]

lemma flatMapBlocks_getD (m : Nat) (F : Nat → List (Nat × Nat × Nat))
    (hF : ∀ k, (F k).length = k + 1) (k j : Nat) (hk : k < m) (hj : j ≤ k)
    (d : Nat × Nat × Nat) :
    ((List.range m).flatMap F).getD (k * (k + 1) / 2 + j) d = (F k).getD j d := by
  have hsplit : m = (k + 1) + (m - (k + 1)) := by omega
  rw [hsplit, List.range_add, List.flatMap_append, List.range_succ, List.flatMap_append]
  have hlenA := flatMapBlocks_twolen k F hF
  have hFk : ([k].flatMap F) = F k := by simp
  rw [hFk]
  rw [List.getD_eq_getElem?_getD, List.getD_eq_getElem?_getD]
  rw [List.append_assoc]
  rw [List.getElem?_append_right (by omega)]
  have h2 : k * (k + 1) / 2 + j - ((List.range k).flatMap F).length = j := by omega
  rw [h2, List.getElem?_append_left (by rw [hF k]; omega)]

lemma generateXYZ_twolen (n : Nat) :
    2 * (generateXYZ n).length = (n + 1) * (n + 2) := by
  unfold generateXYZ
  rw [flatMapBlocks_twolen (n + 1) _ (by intro k; simp)]

lemma generateXYZ_length (n : Nat) :
    (generateXYZ n).length = (n + 1) * (n + 2) / 2 := by
  have h := generateXYZ_twolen n
  omega

lemma generateXYZ_length_pos (n : Nat) : 1 ≤ (generateXYZ n).length := by
  have h := generateXYZ_twolen n
  have h2 : 1 * 2 ≤ (n + 1) * (n + 2) := Nat.mul_le_mul (by omega) (by omega)
  omega

lemma generateXYZ_getD (n k j : Nat) (hk : k ≤ n) (hj : j ≤ k) :
    (generateXYZ n).getD (k * (k + 1) / 2 + j) (0, 0, 0)
      = (n - k, k - j, n - (n - k) - (k - j)) := by
  unfold generateXYZ
  rw [flatMapBlocks_getD (n + 1)
    (fun k' => (List.range (k' + 1)).map (fun i => (n - k', k' - i, n - (n - k') - (k' - i))))
    (by intro k'; simp) k j (by omega) hj (0, 0, 0)]
  rw [List.getD_eq_getElem?_getD]
  simp only [List.getElem?_map, List.getElem?_range (show j < k + 1 by omega)]
  rfl

lemma generateXYZ_mem_sum (n : Nat) : ∀ t ∈ generateXYZ n, t.1 + t.2.1 + t.2.2 = n := by
  intro t ht
  unfold generateXYZ at ht
  simp only [List.mem_flatMap, List.mem_map, List.mem_range] at ht
  obtain ⟨k, hk, i, hi, rfl⟩ := ht
  simp only
  omega

/-- C9: for every shell n, generateXYZ(n) produces the quanta table of length
(n+1)(n+2)/2 in the canonical order: for k = 0..n with n_z = n - k and n_x
descending from k to 0 (n_x = k - j at offset j), index k(k+1)/2 + j holds
the triple (n_z, n_x, n - n_z - n_x), and the three components at every index
sum to n. -/
theorem generateXYZ_canonical_order (n k j : Nat) (hk : k ≤ n) (hj : j ≤ k) :
    (generateXYZ n).length = (n + 1) * (n + 2) / 2 ∧
    (generateXYZ n).getD (k * (k + 1) / 2 + j) (0, 0, 0)
      = (n - k, k - j, n - (n - k) - (k - j)) ∧
    (∀ t ∈ generateXYZ n, t.1 + t.2.1 + t.2.2 = n) :=
  ⟨generateXYZ_length n, generateXYZ_getD n k j hk hj, generateXYZ_mem_sum n⟩

/-- Witness for C9 at n = 2, k = 1, j = 0: index 1 holds (1, 1, 0). -/
theorem generateXYZ_canonical_order_witness :
    (generateXYZ 2).length = (2 + 1) * (2 + 2) / 2 ∧
    (generateXYZ 2).getD (1 * (1 + 1) / 2 + 0) (0, 0, 0)
      = (2 - 1, 1 - 0, 2 - (2 - 1) - (1 - 0)) ∧
    (∀ t ∈ generateXYZ 2, t.1 + t.2.1 + t.2.2 = 2) :=
  generateXYZ_canonical_order 2 1 0 (by decide) (by decide)

/-- C10: for every top row whose total equals the length of the quanta table
built by the preceding generateM(l) or generateXYZ(n) call, every table index
the recursion reads (the per-iteration reads at N = sum - 1, the further
reads as the tail-call loop decrements N, and the base-case read at index 0)
is strictly below the table length, so no out-of-bounds access occurs; the
recursion itself is total, being defined by well-founded recursion on the
row total. -/
theorem quanta_reads_in_bounds (l n : Nat) (r : GelfandRow) :
    (r.sum = (generateM l).length →
      ∀ i ∈ usedIndices r, i < (generateM l).length) ∧
    (r.sum = (generateXYZ n).length →
      ∀ i ∈ usedIndices r, i < (generateXYZ n).length) := by
  constructor
  · intro hsum i hi
    have hlen := generateM_length l
    have hb := usedIndices_bound r.sum r (le_refl _) i hi
    omega
  · intro hsum i hi
    have hlen := generateXYZ_length_pos n
    have hb := usedIndices_bound r.sum r (le_refl _) i hi
    omega

/-- Witness for C10 at l = 0, row (0,0,0,0,1): the single read is at index 0,
below the table length 1. -/
theorem quanta_reads_in_bounds_witness :
    GelfandRow.sum ⟨0,0,0,0,1⟩ = (generateM 0).length ∧
    (0 : Nat) ∈ usedIndices ⟨0,0,0,0,1⟩ ∧
    (0 : Nat) < (generateM 0).length := by
  have hmem : usedIndices ⟨0,0,0,0,1⟩ = [0] := by
    rw [usedIndices]
    norm_num [GelfandRow.sum]
  refine ⟨by decide, by rw [hmem]; exact List.mem_singleton_self 0, ?_⟩
  exact (quanta_reads_in_bounds 0 0 ⟨0,0,0,0,1⟩).1 (by decide) 0
    (by rw [hmem]; exact List.mem_singleton_self 0)

/-- C8: the serial path and the task-parallel path produce identical final
multiplicity-map contents for every input, independent of task ordering and
worker count: for any number k of workers and any assignment of emissions to
workers, summing the thread-local maps (the OpenMP merge loop) equals the
serial multiset of emitted weights. -/
theorem parallel_serial_equivalence {W : Type} [AddCommMonoid W] (q : Nat → W)
    (r : GelfandRow) (pp : W) (k : Nat) (sched : Nat → Fin k) :
    mergeTL k sched (generateWeightsRec q r pp) = ↑(generateWeightsRec q r pp) :=
  wmap_sum k sched (generateWeightsRec q r pp) 0

/-- C6: in the tail-call-eliminated loop, every iteration on a row above the
base-case threshold (N > 0, i.e. at least two particles) performs exactly one
in-place degenerate drop, the one of the group whose counter is nonzero while
all lower groups are zero; in particular an iteration never performs zero or
two in-place drops. -/
theorem tce_single_degenerate_drop {W : Type} [AddCommMonoid W] (q : Nat → W)
    (N : Nat) (r : GelfandRow) (pp : W) (h : 2 ≤ r.sum) :
    (body q N r pp).dropped = degenerateDrop r ∧
    (body q N r pp).dropped.length = 1 := by
  refine ⟨body_dropped_eq q N r pp, ?_⟩
  rw [body_dropped_eq q N r pp]
  exact degenerateDrop_length r (by omega)

/-- Witness for C6 at the row (0,0,0,3,0): the single drop is the n1 one. -/
theorem tce_single_degenerate_drop_witness :
    2 ≤ GelfandRow.sum ⟨0,0,0,3,0⟩ ∧
    ((body (mQ 1) 2 (⟨0,0,0,3,0⟩ : GelfandRow) 0).dropped
        = degenerateDrop ⟨0,0,0,3,0⟩ ∧
      (body (mQ 1) 2 (⟨0,0,0,3,0⟩ : GelfandRow) 0).dropped.length = 1) :=
  ⟨by decide, tce_single_degenerate_drop (mQ 1) 2 ⟨0,0,0,3,0⟩ 0 (by decide)⟩

/-- C4: on every row with n4 > 0 reached above the base-case threshold, the
n4 statement group produces exactly the children of the spec's n4 bullet,
each with exactly the stated weight increment, and no other n4-derived child;
the pure drop is realized in place when all lower groups are empty (then it
is the mutated local state) and as a recursive call otherwise. -/
theorem n4_branch_matches_spec {W : Type} [AddCommMonoid W] (q : Nat → W)
    (N : Nat) (r : GelfandRow) (pp : W) (h4 : 0 < r.n4) (hN : 2 ≤ r.sum) :
    (body4 q N r pp).children
      ++ (body4 q N r pp).dropped.map
          (fun _ => ((body4 q N r pp).row, (body4 q N r pp).pp))
      = n4SpecChildren q N r pp := by
  obtain ⟨n4, n3, n2, n1, n0⟩ := r
  rcases Nat.eq_zero_or_pos n3 with h3 | h3 <;>
    rcases Nat.eq_zero_or_pos n2 with h2 | h2 <;>
      rcases Nat.eq_zero_or_pos n1 with h1 | h1 <;>
        rcases Nat.eq_zero_or_pos n0 with h0 | h0 <;>
          simp_all [body4, n4SpecChildren]

/-- Witness for C4 at the row (1,0,1,0,0): the children are the pure drop and
the n2 mixing transition. -/
theorem n4_branch_matches_spec_witness :
    0 < GelfandRow.n4 ⟨1,0,1,0,0⟩ ∧ 2 ≤ GelfandRow.sum ⟨1,0,1,0,0⟩ ∧
    ((body4 (mQ 1) 1 (⟨1,0,1,0,0⟩ : GelfandRow) 0).children
      ++ (body4 (mQ 1) 1 (⟨1,0,1,0,0⟩ : GelfandRow) 0).dropped.map
          (fun _ => ((body4 (mQ 1) 1 (⟨1,0,1,0,0⟩ : GelfandRow) 0).row,
                     (body4 (mQ 1) 1 (⟨1,0,1,0,0⟩ : GelfandRow) 0).pp))
      = n4SpecChildren (mQ 1) 1 ⟨1,0,1,0,0⟩ 0) :=
  ⟨by decide, by decide,
    n4_branch_matches_spec (mQ 1) 1 ⟨1,0,1,0,0⟩ 0 (by decide) (by decide)⟩

/-- C2 (amended): for SO(3), getLevelDimensionality returns 0 when l < 0; for
l >= 0 the lookup of l itself is guarded by an assertion, so a map without
the key l is an error (modelled as none) rather than a zero contribution;
when l is present the result is M[l] - M[l+1] with an absent key l + 1
contributing 0. -/
theorem so3_level_dimensionality_spec (M : Multiset Int) (l : Int) :
    getLevelDimensionalitySO3 M l =
      if l < 0 then some 0
      else if M.count l = 0 then none
      else some (M.count l - M.count (l + 1)) := by
  unfold getLevelDimensionalitySO3 findMult
  by_cases h0 : l < 0
  · simp [h0]
  · by_cases h1 : M.count l = 0 <;> by_cases h2 : M.count (l + 1) = 0 <;>
      simp [h0, h1, h2]

/-- C2 counterexample: after the completed l = 0 enumeration of the row
(0,0,0,0,1) the map holds only the key 0; querying l = 1 hits the assertion
(modelled none) instead of returning the claimed M[1] - M[2] = 0. -/
theorem so3_level_dimensionality_missing_key_cx :
    getLevelDimensionalitySO3 (generateSO3Weights 0 ⟨0,0,0,0,1⟩) 1 = none ∧
    (generateSO3Weights 0 ⟨0,0,0,0,1⟩).count 1
      - (generateSO3Weights 0 ⟨0,0,0,0,1⟩).count 2 = 0 := by
  have h : generateWeightsRec (mQ 0) (⟨0,0,0,0,1⟩ : GelfandRow) 0 = [0] := by
    rw [generateWeightsRec_unfold]
    norm_num [GelfandRow.sum, mQ, generateM]
  constructor
  · simp [generateSO3Weights, h, getLevelDimensionalitySO3, findMult]
  · simp [generateSO3Weights, h]

/-- C5 (amended): the wrong-total precondition violation is reported
synchronously by the test driver, which throws invalid_argument before the
enumerator object is even constructed, so no multiplicity map (and in
particular no partial state) exists; generateSO3Weights itself performs no
validation, and no out-of-alphabet check exists or is needed because the five
counters encode the alphabet by construction. -/
theorem driver_validates_before_enumeration (l : Nat) (r : GelfandRow)
    (h : r.n4 + r.n3 + r.n2 + r.n1 + r.n0 ≠ 2 * l + 1) :
    mainSO3 l r = Except.error "Arguments mismatch!" := by
  simp [mainSO3, h]

/-- Witness for C5 at l = 0 with counters (0,0,0,0,2). -/
theorem driver_validates_before_enumeration_witness :
    GelfandRow.n4 ⟨0,0,0,0,2⟩ + GelfandRow.n3 ⟨0,0,0,0,2⟩ + GelfandRow.n2 ⟨0,0,0,0,2⟩
        + GelfandRow.n1 ⟨0,0,0,0,2⟩ + GelfandRow.n0 ⟨0,0,0,0,2⟩ ≠ 2 * 0 + 1 ∧
    mainSO3 0 ⟨0,0,0,0,2⟩ = Except.error "Arguments mismatch!" :=
  ⟨by decide, driver_validates_before_enumeration 0 ⟨0,0,0,0,2⟩ (by decide)⟩

/-- C5 counterexample: the enumerate operation itself does not report the
violation: called directly on the invalid input l = 0 with counters
(0,0,0,0,2) (total 2, not 2l + 1 = 1), generateSO3Weights silently fills the
multiplicity map with the key 0 rather than leaving it unmodified. -/
theorem enumerate_no_validation_cx :
    GelfandRow.sum ⟨0,0,0,0,2⟩ ≠ 2 * 0 + 1 ∧
    generateSO3Weights 0 ⟨0,0,0,0,2⟩ = {(0 : Int)} := by
  have h1 : generateWeightsRec (mQ 0) (⟨0,0,0,0,2⟩ : GelfandRow) 0
      = generateWeightsRec (mQ 0) (⟨0,0,0,0,1⟩ : GelfandRow) 0 := by
    rw [generateWeightsRec_unfold]
    norm_num [GelfandRow.sum]
    rw [show body (mQ 0) 1 (⟨0,0,0,0,2⟩ : GelfandRow) 0
        = ⟨[], [0], ⟨0,0,0,0,1⟩, 0⟩ from by decide]
    simp
  have h2 : generateWeightsRec (mQ 0) (⟨0,0,0,0,1⟩ : GelfandRow) 0 = [0] := by
    rw [generateWeightsRec_unfold]
    norm_num [GelfandRow.sum, mQ, generateM]
  refine ⟨by decide, ?_⟩
  rw [generateSO3Weights, h1, h2]
  rfl

/-- C7 counterexample: at l = 1 the row (0,0,0,3,0) labels the one-column
U(3) irrep [1,1,1]; the enumeration emits the single weight 0, so the claimed
key -3 has multiplicity 0, not 1. -/
theorem so3_l1_three_ones_cx :
    generateSO3Weights 1 ⟨0,0,0,3,0⟩ = {(0 : Int)} ∧
    (generateSO3Weights 1 ⟨0,0,0,3,0⟩).count (-3) ≠ 1 := by
  have h1 : generateWeightsRec (mQ 1) (⟨0,0,0,3,0⟩ : GelfandRow) 0
      = generateWeightsRec (mQ 1) (⟨0,0,0,2,0⟩ : GelfandRow) 1 := by
    rw [generateWeightsRec_unfold]
    norm_num [GelfandRow.sum]
    rw [show body (mQ 1) 2 (⟨0,0,0,3,0⟩ : GelfandRow) 0
        = ⟨[], [1], ⟨0,0,0,2,0⟩, 1⟩ from by decide]
    simp
  have h2 : generateWeightsRec (mQ 1) (⟨0,0,0,2,0⟩ : GelfandRow) 1
      = generateWeightsRec (mQ 1) (⟨0,0,0,1,0⟩ : GelfandRow) 1 := by
    rw [generateWeightsRec_unfold]
    norm_num [GelfandRow.sum]
    rw [show body (mQ 1) 1 (⟨0,0,0,2,0⟩ : GelfandRow) 1
        = ⟨[], [1], ⟨0,0,0,1,0⟩, 1⟩ from by decide]
    simp
  have h3 : generateWeightsRec (mQ 1) (⟨0,0,0,1,0⟩ : GelfandRow) 1 = [0] := by
    rw [generateWeightsRec_unfold]
    norm_num [GelfandRow.sum, mQ, generateM]
  have h : generateSO3Weights 1 ⟨0,0,0,3,0⟩ = {(0 : Int)} := by
    rw [generateSO3Weights, h1, h2, h3]
    rfl
  exact ⟨h, by rw [h]; decide⟩

/-- C7 (amended): for SO(3) with l = 1, enumerating the row (0,0,0,3,0)
produces the multiplicity map with exactly the key 0 with multiplicity 1 (the
single Gelfand pattern of the one-column irrep [1,1,1]); its level
dimensionality is D(0) = 1, and the dimension sum is (2*0+1)*1 = 1. -/
theorem so3_l1_three_ones_single_weight :
    generateSO3Weights 1 ⟨0,0,0,3,0⟩ = {(0 : Int)} ∧
    getLevelDimensionalitySO3 (generateSO3Weights 1 ⟨0,0,0,3,0⟩) 0 = some 1 := by
  have h1 : generateWeightsRec (mQ 1) (⟨0,0,0,3,0⟩ : GelfandRow) 0
      = generateWeightsRec (mQ 1) (⟨0,0,0,2,0⟩ : GelfandRow) 1 := by
    rw [generateWeightsRec_unfold]
    norm_num [GelfandRow.sum]
    rw [show body (mQ 1) 2 (⟨0,0,0,3,0⟩ : GelfandRow) 0
        = ⟨[], [1], ⟨0,0,0,2,0⟩, 1⟩ from by decide]
    simp
  have h2 : generateWeightsRec (mQ 1) (⟨0,0,0,2,0⟩ : GelfandRow) 1
      = generateWeightsRec (mQ 1) (⟨0,0,0,1,0⟩ : GelfandRow) 1 := by
    rw [generateWeightsRec_unfold]
    norm_num [GelfandRow.sum]
    rw [show body (mQ 1) 1 (⟨0,0,0,2,0⟩ : GelfandRow) 1
        = ⟨[], [1], ⟨0,0,0,1,0⟩, 1⟩ from by decide]
    simp
  have h3 : generateWeightsRec (mQ 1) (⟨0,0,0,1,0⟩ : GelfandRow) 1 = [0] := by
    rw [generateWeightsRec_unfold]
    norm_num [GelfandRow.sum, mQ, generateM]
  have h : generateSO3Weights 1 ⟨0,0,0,3,0⟩ = {(0 : Int)} := by
    rw [generateSO3Weights, h1, h2, h3]
    rfl
  refine ⟨h, ?_⟩
  rw [h]
  decide

lemma add32_small (a b : Nat) (h : a + b < 2 ^ 32) : add32 a b = a + b :=
  Nat.mod_eq_of_lt h

lemma sub32_no_underflow (a b : Nat) (hba : b ≤ a) (ha : a < 2 ^ 32)
    (hb : b < 2 ^ 32) : sub32 a b = a - b := by
  unfold sub32
  rw [Nat.mod_eq_of_lt ha, Nat.mod_eq_of_lt hb]
  have h : a + (2 ^ 32 - b) = (a - b) + 2 ^ 32 := by omega
  rw [h, Nat.add_mod_right]
  exact Nat.mod_eq_of_lt (by omega)

lemma sub32_underflow (a b : Nat) (hab : a < b) (hb : b < 2 ^ 32) :
    sub32 a b = a + 2 ^ 32 - b := by
  unfold sub32
  rw [Nat.mod_eq_of_lt (show a < 2 ^ 32 by omega), Nat.mod_eq_of_lt hb]
  have h : a + (2 ^ 32 - b) = a + 2 ^ 32 - b := by omega
  rw [h]
  exact Nat.mod_eq_of_lt (by omega)

lemma count_key_eq_countZ (M : Multiset (Nat × Nat × Nat))
    (hM : ∀ p ∈ M, p.1 < 2 ^ 31 ∧ p.2.1 < 2 ^ 31 ∧ p.2.2 < 2 ^ 31)
    (x y z : Nat) (X Y Z : Int)
    (hx : (X = (x : Int)) ∨ (X < 0 ∧ 2 ^ 31 ≤ x))
    (hy : (Y = (y : Int)) ∨ (Y < 0 ∧ 2 ^ 31 ≤ y))
    (hz : (Z = (z : Int)) ∨ (Z < 0 ∧ 2 ^ 31 ≤ z)) :
    M.count (x, y, z) = countZ M X Y Z := by
  rcases hx with hX | ⟨hX, hxb⟩ <;>
    rcases hy with hY | ⟨hY, hyb⟩ <;>
      rcases hz with hZ | ⟨hZ, hzb⟩ <;>
    first
      | rw [hX, hY, hZ, countZ_coe]
      | rw [countZ_neg M X Y Z (by tauto), count_big_zero M hM x y z (by tauto)]

/-- C3 (amended): for U(3), getLevelDimensionality returns 0 when f1 < f2 or
f2 < f3; otherwise the lookup of (f1,f2,f3) itself is guarded by an
assertion, so an absent (f1,f2,f3) is an error (modelled as none) rather than
a zero contribution; when present, the result is
M[f1,f2,f3] + M[f1+1,f2+1,f3-2] + M[f1+2,f2-1,f3-1] - M[f1+2,f2,f3-2]
- M[f1+1,f2-1,f3] - M[f1,f2+1,f3-1] in the unsigned multiplicity type, where
the shifted keys are read over the integers (countZ), so every absent key,
including those with a negative component, contributes 0.  The bounds keep
the uint32_t key arithmetic and the stored weights away from the wrap-around
values, as in every supported shell. -/
theorem u3_level_dimensionality_formula (M : Multiset (Nat × Nat × Nat))
    (f1 f2 f3 : Nat)
    (hM : ∀ p ∈ M, p.1 < 2 ^ 31 ∧ p.2.1 < 2 ^ 31 ∧ p.2.2 < 2 ^ 31)
    (hf1 : f1 < 2 ^ 31) (hf2 : f2 < 2 ^ 31) (hf3 : f3 < 2 ^ 31) :
    getLevelDimensionalityU3 M (f1, f2, f3) =
      if f1 < f2 ∨ f2 < f3 then some 0
      else if M.count (f1, f2, f3) = 0 then none
      else some ((((M.count (f1, f2, f3)
        + countZ M ((f1 : Int) + 1) ((f2 : Int) + 1) ((f3 : Int) - 2)
        + countZ M ((f1 : Int) + 2) ((f2 : Int) - 1) ((f3 : Int) - 1))
        - countZ M ((f1 : Int) + 2) ((f2 : Int)) ((f3 : Int) - 2))
        - countZ M ((f1 : Int) + 1) ((f2 : Int) - 1) ((f3 : Int)))
        - countZ M ((f1 : Int)) ((f2 : Int) + 1) ((f3 : Int) - 1)) := by
  by_cases hord : f1 < f2 ∨ f2 < f3
  · unfold getLevelDimensionalityU3
    simp [hord]
  · have e1 : M.count (add32 f1 1, add32 f2 1, sub32 f3 2)
        = countZ M ((f1 : Int) + 1) ((f2 : Int) + 1) ((f3 : Int) - 2) := by
      apply count_key_eq_countZ M hM
      · left; rw [add32_small f1 1 (by omega)]; omega
      · left; rw [add32_small f2 1 (by omega)]; omega
      · rcases Nat.lt_or_ge f3 2 with h | h
        · right
          rw [sub32_underflow f3 2 h (by norm_num)]
          constructor <;> omega
        · left
          rw [sub32_no_underflow f3 2 h (by omega) (by norm_num)]
          omega
    have e2 : M.count (add32 f1 2, sub32 f2 1, sub32 f3 1)
        = countZ M ((f1 : Int) + 2) ((f2 : Int) - 1) ((f3 : Int) - 1) := by
      apply count_key_eq_countZ M hM
      · left; rw [add32_small f1 2 (by omega)]; omega
      · rcases Nat.lt_or_ge f2 1 with h | h
        · right
          rw [sub32_underflow f2 1 h (by norm_num)]
          constructor <;> omega
        · left
          rw [sub32_no_underflow f2 1 h (by omega) (by norm_num)]
          omega
      · rcases Nat.lt_or_ge f3 1 with h | h
        · right
          rw [sub32_underflow f3 1 h (by norm_num)]
          constructor <;> omega
        · left
          rw [sub32_no_underflow f3 1 h (by omega) (by norm_num)]
          omega
    have e3 : M.count (add32 f1 2, f2, sub32 f3 2)
        = countZ M ((f1 : Int) + 2) ((f2 : Int)) ((f3 : Int) - 2) := by
      apply count_key_eq_countZ M hM
      · left; rw [add32_small f1 2 (by omega)]; omega
      · left; rfl
      · rcases Nat.lt_or_ge f3 2 with h | h
        · right
          rw [sub32_underflow f3 2 h (by norm_num)]
          constructor <;> omega
        · left
          rw [sub32_no_underflow f3 2 h (by omega) (by norm_num)]
          omega
    have e4 : M.count (add32 f1 1, sub32 f2 1, f3)
        = countZ M ((f1 : Int) + 1) ((f2 : Int) - 1) ((f3 : Int)) := by
      apply count_key_eq_countZ M hM
      · left; rw [add32_small f1 1 (by omega)]; omega
      · rcases Nat.lt_or_ge f2 1 with h | h
        · right
          rw [sub32_underflow f2 1 h (by norm_num)]
          constructor <;> omega
        · left
          rw [sub32_no_underflow f2 1 h (by omega) (by norm_num)]
          omega
      · left; rfl
    have e5 : M.count (f1, add32 f2 1, sub32 f3 1)
        = countZ M ((f1 : Int)) ((f2 : Int) + 1) ((f3 : Int) - 1) := by
      apply count_key_eq_countZ M hM
      · left; rfl
      · left; rw [add32_small f2 1 (by omega)]; omega
      · rcases Nat.lt_or_ge f3 1 with h | h
        · right
          rw [sub32_underflow f3 1 h (by norm_num)]
          constructor <;> omega
        · left
          rw [sub32_no_underflow f3 1 h (by omega) (by norm_num)]
          omega
    by_cases hc : M.count (f1, f2, f3) = 0
    · unfold getLevelDimensionalityU3
      simp [hord, hc, findMult]
    · have hfind : findMult M (f1, f2, f3) = some (M.count (f1, f2, f3)) := by
        simp [findMult, hc]
      unfold getLevelDimensionalityU3
      rw [hfind]
      simp only [if_neg hord]
      rw [findMult_getD_eq, findMult_getD_eq, findMult_getD_eq, findMult_getD_eq,
        findMult_getD_eq]
      rw [e1, e2, e3, e4, e5]
      simp [hc]

/-- Witness for C3 at the one-key map M = {(2,2,2)} queried at (2,2,2): the
key is present with multiplicity 1, all shifted keys are absent, and the
result is some 1. -/
theorem u3_level_dimensionality_formula_witness :
    (∀ p ∈ ({((2 : Nat), (2 : Nat), (2 : Nat))} : Multiset (Nat × Nat × Nat)),
        p.1 < 2 ^ 31 ∧ p.2.1 < 2 ^ 31 ∧ p.2.2 < 2 ^ 31) ∧
    (2 : Nat) < 2 ^ 31 ∧
    getLevelDimensionalityU3 {((2 : Nat), (2 : Nat), (2 : Nat))} (2, 2, 2) =
      (if (2 : Nat) < 2 ∨ (2 : Nat) < 2 then some 0
       else if Multiset.count (2, 2, 2)
            ({((2 : Nat), (2 : Nat), (2 : Nat))} : Multiset (Nat × Nat × Nat)) = 0 then none
       else some ((((Multiset.count (2, 2, 2)
              ({((2 : Nat), (2 : Nat), (2 : Nat))} : Multiset (Nat × Nat × Nat))
        + countZ {((2 : Nat), (2 : Nat), (2 : Nat))} ((2 : Int) + 1) ((2 : Int) + 1) ((2 : Int) - 2)
        + countZ {((2 : Nat), (2 : Nat), (2 : Nat))} ((2 : Int) + 2) ((2 : Int) - 1) ((2 : Int) - 1))
        - countZ {((2 : Nat), (2 : Nat), (2 : Nat))} ((2 : Int) + 2) ((2 : Int)) ((2 : Int) - 2))
        - countZ {((2 : Nat), (2 : Nat), (2 : Nat))} ((2 : Int) + 1) ((2 : Int) - 1) ((2 : Int)))
        - countZ {((2 : Nat), (2 : Nat), (2 : Nat))} ((2 : Int)) ((2 : Int) + 1) ((2 : Int) - 1))) := by
  refine ⟨by decide, by decide, ?_⟩
  have h := u3_level_dimensionality_formula {((2 : Nat), (2 : Nat), (2 : Nat))} 2 2 2
    (by decide) (by decide) (by decide) (by decide)
  simpa using h

/-- C3 counterexample: after the completed n = 0 enumeration of the row
(0,0,0,0,1) the map holds only the key (0,0,0); querying the valid label
(1,0,0) hits the assertion (modelled none) instead of returning 0 from six
absent-key contributions as the claim states. -/
theorem u3_level_dimensionality_missing_key_cx :
    getLevelDimensionalityU3 (generateU3Weights 0 ⟨0,0,0,0,1⟩) (1, 0, 0) = none := by
  have h : generateWeightsRec (xyzQ 0) (⟨0,0,0,0,1⟩ : GelfandRow) (0, 0, 0)
      = [(0, 0, 0)] := by
    rw [generateWeightsRec_unfold]
    norm_num [GelfandRow.sum, xyzQ, generateXYZ]
  rw [generateU3Weights, h]
  decide
